import Mathlib

/-!
# Verification of `commons/http_rest_client.py`

A shallow embedding of the HTTP REST client: the retry executor (`execute`),
the thread-pool fan-out (`execute_in_thread_pool`), URL construction
(`make_url`), and session construction (`make_session`, `make_session_ctx`).

The HTTP transport itself (the `requests` library) is an external
collaborator: an operation is modelled by the outcome of each of its
invocations — either a `Response` or the exception the invocation raises.
-/

namespace HttpRest

/-- The errors an operation or the client can raise.
`valueError` is `ValueError('base_url is not set')` from `make_url`
(the spec's ConfigurationError); `keyError` is the `KeyError` raised by
`json['id']` in `make_put_function`; `transportError` is a network-level
failure from the transport; `httpStatusError` is the `HTTPError` raised by
`response.raise_for_status()`. -/
inductive HttpError : Type
  | transportError (msg : String)
  | httpStatusError (status : Nat)
  | valueError (msg : String)
  | keyError (key : String)
deriving DecidableEq

/-- An HTTP response: status code and body (the parts the client inspects). -/
structure Response : Type where
  statusCode : Nat
  body : String
deriving DecidableEq

/-- A Python value as it occurs in the suffix/payload positions of this
client: `None`, an `int`, or a `str`. -/
inductive PyVal : Type
  | vnone
  | vint (n : Int)
  | vstr (s : String)
deriving DecidableEq

/-- Python truthiness for `PyVal`: `None`, `0` and `""` are falsy. -/
def pyTruthy : PyVal → Bool
  | .vnone => false
  | .vint n => n != 0
  | .vstr s => s != ""

/-- Python `str()` on a `PyVal` (identity on strings, decimal rendering of
ints, matching Python's `str` for integers). -/
def pyStr : PyVal → String
  | .vnone => "None"
  | .vint n => toString n
  | .vstr s => s

/-- Python `s.startswith('/')` for a one-character pattern: the first
character of `s` is `'/'`. -/
def startsWithSlash (s : String) : Bool := s.data.head? == some '/'

/-- The state of an `HttpRestClient` instance (`__init__`): the `or {}`
defaults of the constructor are applied, so the mapping fields are plain
lists of pairs; `base_url` and `bearer_token` keep their `None` default as
`Option`. -/
structure HttpRestClient : Type where
  base_url : Option String
  base_params : List (String × String)
  base_headers : List (String × String)
  proxies : List (String × String)
  bearer_token : Option String
  base_retry_count : Nat
  base_retry_delay : Nat

/-- Python's `x or base` defaulting applied to an optional integer
argument: `None` and `0` are falsy and are replaced by `base`. -/
def pyOrNat (x : Option Nat) (base : Nat) : Nat :=
  match x with
  | none => base
  | some v => if v = 0 then base else v

/-- An operation (`executable`): invocation number `k` (0-based) either
returns a `Response` or raises an `HttpError`.  Retrying re-invokes the
same operation, so the outcome is indexed by the attempt number. -/
def Operation : Type := Nat → Except HttpError Response

/-- `response.raise_for_status()`: raises `HTTPError` exactly when the
status code is in the 4xx/5xx range (400 ≤ code < 600), otherwise returns
the response. -/
def raise_for_status (r : Response) : Except HttpError Response :=
  if 400 ≤ r.statusCode ∧ r.statusCode < 600 then
    Except.error (HttpError.httpStatusError r.statusCode)
  else
    Except.ok r

/-- One attempt of the `try` body of `execute`: invoke the operation, then
`raise_for_status` on its response; any raised error falls to the
`except` clause. -/
def attemptResult (op : Operation) (k : Nat) : Except HttpError Response :=
  match op k with
  | Except.ok r => raise_for_status r
  | Except.error e => Except.error e

instance {α : Type} [DecidableEq α] : DecidableEq (Except HttpError α) := fun a b =>
  match a, b with
  | Except.ok x, Except.ok y =>
    if h : x = y then isTrue (by rw [h]) else isFalse (fun hc => h (by injection hc))
  | Except.ok _, Except.error _ => isFalse (fun hc => Except.noConfusion hc)
  | Except.error _, Except.ok _ => isFalse (fun hc => Except.noConfusion hc)
  | Except.error x, Except.error y =>
    if h : x = y then isTrue (by rw [h]) else isFalse (fun hc => h (by injection hc))

/-- The observable outcome of one `execute` call: the returned value
(`none` when the `for` loop runs zero iterations and the function falls
through returning Python `None`), the number of times the operation was
invoked, and the list of the `time.sleep` durations in order. -/
structure ExecTrace : Type where
  result : Option (Except HttpError Response)
  invocations : Nat
  sleeps : List Nat
deriving DecidableEq

/-- The `for i in range(retry_count)` loop of `execute`, about to run
attempt `i` with `fuel` iterations left (`i + fuel = rc` when entered from
the top).  On success the response is returned at once; on an error at the
last attempt (`i == retry_count - 1`) the error is re-raised; otherwise
`time.sleep(retry_delay * (i + 1))` runs and the loop continues. -/
def executeFrom (op : Operation) (d rc : Nat) : Nat → Nat → ExecTrace
  | _, 0 => ⟨none, 0, []⟩
  | i, fuel + 1 =>
    match attemptResult op i with
    | Except.ok r => ⟨some (Except.ok r), 1, []⟩
    | Except.error e =>
      if i = rc - 1 then ⟨some (Except.error e), 1, []⟩
      else
        let rest := executeFrom op d rc (i + 1) fuel
        ⟨rest.result, rest.invocations + 1, d * (i + 1) :: rest.sleeps⟩

/-- `HttpRestClient.execute`: `retry_count = retry_count or
self.base_retry_count`, `retry_delay = retry_delay or
self.base_retry_delay`, then the retry loop.  The keyword arguments are
`Option`s (`none` = not passed, defaulting to Python `None`). -/
def execute (client : HttpRestClient) (executable : Operation)
    (retry_count retry_delay : Option Nat) : ExecTrace :=
  let rc := pyOrNat retry_count client.base_retry_count
  let rd := pyOrNat retry_delay client.base_retry_delay
  executeFrom executable rd rc 0 rc

/-- `HttpRestClient.make_url`: start from `self.base_url`; `if not url:`
raise `ValueError('base_url is not set')` (`None` and `""` are falsy);
`if append_suffix:` (falsy suffixes — `None`, `0`, `""` — are skipped)
coerce a non-`str` suffix with `str()`, prepend `'/'` unless the string
already starts with one, and append it to the URL. -/
def make_url (client : HttpRestClient) (append_suffix : PyVal) : Except HttpError String :=
  match client.base_url with
  | none => Except.error (HttpError.valueError "base_url is not set")
  | some url =>
    if url = "" then Except.error (HttpError.valueError "base_url is not set")
    else if pyTruthy append_suffix then
      let s := pyStr append_suffix
      let s := if startsWithSlash s then s else "/" ++ s
      Except.ok (url ++ s)
    else Except.ok url

/-- The URL construction performed when the operation built by
`make_put_function` is invoked: `http_client.make_url(json['id'])`.
The subscript raises `KeyError('id')` when the payload has no `id` key;
otherwise the value (possibly `None`) is passed to `make_url`.  The
payload is an association list (Python dicts have unique keys). -/
def make_put_url (client : HttpRestClient) (json : List (String × PyVal)) :
    Except HttpError String :=
  match (json.find? (fun kv => kv.1 == "id")).map (fun kv => kv.2) with
  | none => Except.error (HttpError.keyError "id")
  | some v => make_url client v

/-- `make_get_function` returns `_func`, which calls
`http_client.make_url()` only when invoked: the factory body builds no URL
and never reads `base_url`, so building succeeds for any client state, and
the client state that matters is the one at invocation time.  The returned
closure is therefore a function of the client at call time; the build-time
client is ignored (the transport call `session.get(url)` is the external
collaborator and is out of scope).  -/
def make_get_function (_clientAtBuild : HttpRestClient) :
    HttpRestClient → Except HttpError String :=
  fun clientAtCall => make_url clientAtCall PyVal.vnone

/-- Modelled from the spec: `commons.threads` (`ThreadWrapper`,
`start_threads`, `join_threads`) is not under `src/`.  Per the spec, the
pool runs each thread's zero-argument target to completion as an
independently schedulable unit under the `max_threads` admission bound
(the bound affects scheduling only, never values), and `join_threads`
waits for all of them; a thread's stored `result` is the value its target
returned.

`execute_in_thread_pool` itself translates the source: every iteration of
`for func in funcs:` defines `_func` closing over the loop variable
`func` by reference — one shared cell per call frame, not one per
iteration.  `start_threads` runs only after the loop has exhausted
`funcs`, so when a target executes, `func` holds the last element of
`funcs`; every thread therefore runs
`self.execute(<last func>, retry_count=retry_count)` (with `retry_delay`
not passed), and the generator yields the `result` of each thread in
submission order. -/
def execute_in_thread_pool (client : HttpRestClient)
    (funcs : List Operation) (retry_count : Nat) : List ExecTrace :=
  match funcs.getLast? with
  | none => []
  | some fLast => funcs.map (fun _ => execute client fLast (some retry_count) none)

/-- A string-keyed mapping, modelled extensionally (Python dict ordering
is irrelevant to every property considered here). -/
def Dict : Type := String → Option String

/-- The empty mapping. -/
def emptyDict : Dict := fun _ => none

/-- Python `d[k] = v`. -/
def dictSet (d : Dict) (k v : String) : Dict :=
  fun q => if q = k then some v else d q

/-- Python `d.update(entries)`: later entries override earlier ones and
existing keys. -/
def dictUpdate (d : Dict) (entries : List (String × String)) : Dict :=
  entries.foldl (fun acc kv => dictSet acc kv.1 kv.2) d

/-- The observable state of a built `requests.Session`. -/
structure SessionModel : Type where
  headers : Dict
  params : Dict
  proxies : Dict

/-- `HttpRestClient.make_session`: starting from the transport's fresh
session (whose stock header set is the parameter `defaults`; a fresh
session has empty params and proxies), update headers with
`self.base_headers` then with the call's `headers or {}`; then, `if
self.bearer_token:` (truthy: set and non-empty), assign
`sess.headers['Authorization'] = f'Bearer {token}'` — after both header
merges; then merge params and proxies the same way. -/
def make_session (defaults : Dict) (client : HttpRestClient)
    (headers params : List (String × String)) : SessionModel :=
  let h := dictUpdate defaults client.base_headers
  let h := dictUpdate h headers
  let h :=
    match client.bearer_token with
    | none => h
    | some t => if t = "" then h else dictSet h "Authorization" ("Bearer " ++ t)
  let p := dictUpdate emptyDict client.base_params
  let p := dictUpdate p params
  ⟨h, p, dictUpdate emptyDict client.proxies⟩

/-- `HttpRestClient.make_session_ctx`: the generator body is
`session = self.make_session(...)`, `yield session`, `session.close()` —
with no `try`/`finally`.  Under `contextlib.contextmanager`, when the
`with`-body raises, the exception is re-raised at the `yield` and
propagates out of the generator, so the `session.close()` line never
runs; only a normally-returning body resumes the generator past the
`yield`.  The model runs the `with`-body on the built session and returns
the body's outcome together with whether `close()` ran. -/
def make_session_ctx (defaults : Dict) (client : HttpRestClient)
    (headers params : List (String × String))
    (body : SessionModel → Except HttpError Unit) :
    Except HttpError Unit × Bool :=
  let sess := make_session defaults client headers params
  match body sess with
  | Except.ok a => (Except.ok a, true)
  | Except.error e => (Except.error e, false)

/-- Whether an `Except` outcome is a raised error. -/
def isFailure {α : Type} : Except HttpError α → Bool
  | Except.ok _ => false
  | Except.error _ => true

/-! ## Concrete fixtures used by witnesses and counterexamples -/

/-- A concrete client: `HttpRestClient(base_url='http://x',
bearer_token='abc')`, keeping the constructor defaults
`base_retry_count=3`, `base_retry_delay=1`. -/
def cfgW : HttpRestClient :=
  ⟨some "http://x", [], [], [], some "abc", 3, 1⟩

/-- An operation whose every invocation returns status 200 with body "a". -/
def opA : Operation := fun _ => Except.ok ⟨200, "a"⟩

/-- An operation whose every invocation returns status 200 with body "b". -/
def opB : Operation := fun _ => Except.ok ⟨200, "b"⟩

/-- An operation whose every invocation raises a transport error. -/
def failOp : Operation := fun _ => Except.error (HttpError.transportError "connection refused")

/-- An operation whose every invocation raises
`ValueError('base_url is not set')` — what a request operation does when
the client's `base_url` is unset (the spec's ConfigurationError). -/
def cfgErrOp : Operation := fun _ => Except.error (HttpError.valueError "base_url is not set")

/-- A client whose `base_url` is still unset (`HttpRestClient()` with the
constructor defaults). -/
def cfgUnset : HttpRestClient :=
  ⟨none, [], [], [], none, 3, 1⟩

/-! ## General lemmas about the retry loop -/

/-- Prepending the sleep of attempt `i` to the sleeps of the remaining
attempts shifts the backoff schedule by one. -/
lemma sleeps_cons (d i m : Nat) :
    d * (i + 1) :: (List.range m).map (fun j => d * (i + 1 + 1 + j)) =
      (List.range (m + 1)).map (fun j => d * (i + 1 + j)) := by
  rw [List.range_succ_eq_map, List.map_cons, List.map_map]
  refine congrArg₂ List.cons (by ring_nf) ?_
  apply List.map_congr_left
  intro a _
  simp only [Function.comp, Nat.succ_eq_add_one]
  ring

/-- The loop performs at most `fuel` invocations. -/
lemma executeFrom_inv_le (op : Operation) (d rc : Nat) :
    ∀ (fuel i : Nat), (executeFrom op d rc i fuel).invocations ≤ fuel := by
  intro fuel
  induction fuel with
  | zero => intro i; simp [executeFrom]
  | succ f ih =>
    intro i
    unfold executeFrom
    cases attemptResult op i with
    | ok r => simp
    | error e =>
      by_cases hi : i = rc - 1
      · simp [hi]
      · simp only [if_neg hi]
        exact Nat.add_le_add_right (ih (i + 1)) 1

/-- With at least one iteration left, the loop invokes the operation at
least once. -/
lemma executeFrom_inv_pos (op : Operation) (d rc : Nat) (fuel i : Nat) (hf : 1 ≤ fuel) :
    1 ≤ (executeFrom op d rc i fuel).invocations := by
  cases fuel with
  | zero => omega
  | succ f =>
    unfold executeFrom
    cases attemptResult op i with
    | ok r => simp
    | error e =>
      by_cases hi : i = rc - 1
      · simp [hi]
      · simp only [if_neg hi]
        omega

/-- The backoff schedule of any run of the loop: one sleep after every
invoked attempt except the last invoked one, of duration
`d * (attempt index + 1)`. -/
lemma executeFrom_sleeps (op : Operation) (d rc : Nat) :
    ∀ (fuel i : Nat), i + fuel = rc →
      (executeFrom op d rc i fuel).sleeps =
        (List.range ((executeFrom op d rc i fuel).invocations - 1)).map
          (fun j => d * (i + 1 + j)) := by
  intro fuel
  induction fuel with
  | zero => intro i hrc; simp [executeFrom]
  | succ f ih =>
    intro i hrc
    unfold executeFrom
    cases attemptResult op i with
    | ok r => simp
    | error e =>
      by_cases hi : i = rc - 1
      · simp [hi]
      · simp only [if_neg hi]
        have hf : 1 ≤ f := by omega
        have hpos := executeFrom_inv_pos op d rc f (i + 1) hf
        obtain ⟨m, hm⟩ : ∃ m, (executeFrom op d rc (i + 1) f).invocations = m + 1 :=
          ⟨(executeFrom op d rc (i + 1) f).invocations - 1, by omega⟩
        have hrest := ih (i + 1) (by omega)
        simp only [hrest, hm, Nat.add_sub_cancel, Nat.succ_sub_one]
        exact sleeps_cons d i m

/-- A run of the loop on an operation whose every attempt fails: all
remaining attempts are invoked, the final attempt's error is the result,
and a backoff sleep follows every attempt but the last. -/
lemma executeFrom_all_fail (op : Operation) (d rc : Nat)
    (hfail : ∀ k, isFailure (attemptResult op k) = true) :
    ∀ (fuel i : Nat), i + fuel = rc → 1 ≤ fuel →
      executeFrom op d rc i fuel =
        ⟨some (attemptResult op (rc - 1)), fuel,
          (List.range (fuel - 1)).map (fun j => d * (i + 1 + j))⟩ := by
  intro fuel
  induction fuel with
  | zero => intro i hrc hf; omega
  | succ f ih =>
    intro i hrc hf
    unfold executeFrom
    obtain ⟨e, he⟩ : ∃ e, attemptResult op i = Except.error e := by
      cases hA : attemptResult op i with
      | ok r => exact absurd (hfail i) (by simp [hA, isFailure])
      | error e => exact ⟨e, rfl⟩
    rw [he]
    by_cases hi : i = rc - 1
    · have hfz : f = 0 := by omega
      subst hfz
      simp only [if_pos hi]
      rw [← hi, he]
      simp
    · simp only [if_neg hi]
      have hrest := ih (i + 1) (by omega) (by omega)
      simp only [hrest]
      rw [sleeps_cons d i (f - 1)]
      have hff : f - 1 + 1 = f + 1 - 1 := by omega
      rw [hff]

/-- Python's `or`-defaulting keeps a positive explicit argument. -/
lemma pyOrNat_pos (v base : Nat) (hv : 1 ≤ v) : pyOrNat (some v) base = v := by
  have h : pyOrNat (some v) base = if v = 0 then base else v := rfl
  rw [h, if_neg (by omega)]

/-! ## Lemmas about URL construction

Python renders an integer id with `str()`; its decimal representation is
built from digit characters (and a possible leading minus sign), so it can
never begin with `'/'` — the fact behind "a leading slash is ensured
exactly once" for integer ids. -/

/-- No digit character is a slash. -/
lemma digitChar_ne_slash (k : Nat) : Nat.digitChar k ≠ '/' := by
  by_cases h16 : k < 16
  · interval_cases k <;> decide
  · intro h
    unfold Nat.digitChar at h
    iterate 16 rw [if_neg (by omega)] at h
    exact absurd h (by decide)

/-- Every character produced by `Nat.toDigitsCore` is a digit character or
comes from the accumulator. -/
lemma toDigitsCore_mem (b : Nat) :
    ∀ (fuel n : Nat) (ds : List Char) (c : Char),
      c ∈ Nat.toDigitsCore b fuel n ds → (∃ k, c = Nat.digitChar k) ∨ c ∈ ds := by
  intro fuel
  induction fuel with
  | zero => intro n ds c h; right; simpa [Nat.toDigitsCore] using h
  | succ f ih =>
    intro n ds c h
    unfold Nat.toDigitsCore at h
    by_cases hz : n / b = 0
    · simp only [hz, if_pos] at h
      rcases List.mem_cons.mp h with h | h
      · exact Or.inl ⟨n % b, h⟩
      · exact Or.inr h
    · rw [if_neg hz] at h
      rcases ih _ _ _ h with h | h
      · exact Or.inl h
      · rcases List.mem_cons.mp h with h | h
        · exact Or.inl ⟨n % b, h⟩
        · exact Or.inr h

/-- The decimal representation of a natural number never begins with a
slash. -/
lemma natRepr_no_slash (n : Nat) : startsWithSlash (Nat.repr n) = false := by
  unfold startsWithSlash
  have hdata : (Nat.repr n).data = Nat.toDigits 10 n := rfl
  rw [hdata]
  cases hl : Nat.toDigits 10 n with
  | nil => rfl
  | cons a t =>
    simp only [List.head?, Option.some.injEq, beq_iff_eq, beq_eq_false_iff_ne, ne_eq]
    intro ha
    have hmem : '/' ∈ Nat.toDigits 10 n := by
      rw [hl, ← ha]; exact List.mem_cons_self _ _
    rcases toDigitsCore_mem 10 _ _ _ _ hmem with ⟨k, hk⟩ | h
    · exact digitChar_ne_slash k hk.symm
    · simp at h

/-- `str(n)` for an integer `n` never begins with a slash. -/
lemma int_toString_no_slash (n : Int) : startsWithSlash (toString n) = false := by
  cases n with
  | ofNat m =>
    have h : toString (Int.ofNat m) = Nat.repr m := rfl
    rw [h]; exact natRepr_no_slash m
  | negSucc m =>
    have h : toString (Int.negSucc m) = "-" ++ Nat.repr (m + 1) := rfl
    rw [h]
    unfold startsWithSlash
    have h2 : (("-" : String) ++ Nat.repr (m + 1)).data = '-' :: (Nat.repr (m + 1)).data := by
      simp [String.data_append]
    rw [h2]
    rfl

/-- With a non-empty base URL, a falsy suffix (`None`, `0`, `""`) leaves
the URL unchanged. -/
lemma make_url_falsy (client : HttpRestClient) (u : String)
    (hu : client.base_url = some u) (hne : u ≠ "") (s : PyVal)
    (hs : pyTruthy s = false) : make_url client s = Except.ok u := by
  unfold make_url
  rw [hu]
  simp [if_neg hne, hs]

/-- With a non-empty base URL, a truthy suffix is coerced to a string and
appended behind exactly one slash. -/
lemma make_url_truthy (client : HttpRestClient) (u : String)
    (hu : client.base_url = some u) (hne : u ≠ "") (s : PyVal)
    (hs : pyTruthy s = true) :
    make_url client s =
      Except.ok (u ++ (if startsWithSlash (pyStr s) then pyStr s else "/" ++ pyStr s)) := by
  unfold make_url
  rw [hu]
  simp [if_neg hne, hs]

/-- With the base URL unset or empty, `make_url` raises
`ValueError('base_url is not set')`. -/
lemma make_url_unset (client : HttpRestClient)
    (h : client.base_url = none ∨ client.base_url = some "") (s : PyVal) :
    make_url client s = Except.error (HttpError.valueError "base_url is not set") := by
  unfold make_url
  rcases h with h | h
  · rw [h]
  · rw [h]; simp

/-! ## The claims -/

/-- C1 (code bug, evaluated at the failing input): with two operations
whose outcomes differ (`opA` answers body "a", `opB` answers body "b"),
`execute_in_thread_pool` yields the outcome of the *last* operation for
*both* slots — each thread's `_func` reads the shared loop variable
`func`, which holds the final element once `start_threads` runs.  Running
slot 0's own operation would have produced body "a", so `result[i]` does
not correspond to `ops[i]`. -/
theorem thread_pool_late_binding_eval :
    (execute_in_thread_pool cfgW [opA, opB] 3).map (fun t => t.result) =
        [some (Except.ok ⟨200, "b"⟩), some (Except.ok ⟨200, "b"⟩)] ∧
      (execute cfgW opA (some 3) none).result = some (Except.ok ⟨200, "a"⟩) ∧
      Response.mk 200 "b" ≠ Response.mk 200 "a" := by decide

/-- C2: for every retryCount ≥ 1 passed to `execute`, an operation whose
every invocation fails (transport error or non-success status) is invoked
exactly retryCount times, and `execute` raises the error of the final
attempt to the caller. -/
theorem execute_exhausts_retry_count (client : HttpRestClient) (op : Operation)
    (rc : Nat) (rd : Option Nat) (hrc : 1 ≤ rc)
    (hfail : ∀ k, isFailure (attemptResult op k) = true) :
    (execute client op (some rc) rd).invocations = rc ∧
      (execute client op (some rc) rd).result = some (attemptResult op (rc - 1)) ∧
      isFailure (attemptResult op (rc - 1)) = true := by
  unfold execute
  simp only [pyOrNat_pos rc client.base_retry_count hrc]
  rw [executeFrom_all_fail op (pyOrNat rd client.base_retry_delay) rc hfail rc 0 (by omega) hrc]
  exact ⟨rfl, rfl, hfail _⟩

/-- C2 witness: an always-failing operation under retryCount = 3 is
invoked 3 times and the third attempt's error is raised. -/
theorem execute_exhausts_retry_count_witness :
    (execute cfgW failOp (some 3) none).invocations = 3 ∧
      (execute cfgW failOp (some 3) none).result = some (attemptResult failOp 2) ∧
      isFailure (attemptResult failOp 2) = true :=
  execute_exhausts_retry_count cfgW failOp 3 none (by omega) (fun _ => rfl)

/-- C3 counterexample: the claim admits retryDelaySeconds = 0, but an
explicit 0 is discarded by `retry_delay or self.base_retry_delay`; with
the default base delay of 1 and retryCount = 2, the sleep after failed
attempt 0 lasts 1 second, not the claimed 0 * (0 + 1) = 0. -/
theorem sleeps_zero_delay_counterexample :
    (execute cfgW failOp (some 2) (some 0)).sleeps = [1] ∧
      (execute cfgW failOp (some 2) (some 0)).sleeps ≠ [0 * (0 + 1)] := by decide

/-- C3 amended: for every retryCount ≥ 1 and retryDelaySeconds ≥ 1 passed
to `execute`, the sleeps are exactly retryDelaySeconds * (i + 1) after
each failed non-final invoked attempt i — never after a successful or
final attempt — and with retryCount = 1 no sleep occurs at all. -/
theorem execute_backoff_schedule (client : HttpRestClient) (op : Operation)
    (rc rd : Nat) (hrc : 1 ≤ rc) (hrd : 1 ≤ rd) :
    (execute client op (some rc) (some rd)).sleeps =
        (List.range ((execute client op (some rc) (some rd)).invocations - 1)).map
          (fun i => rd * (i + 1)) ∧
      (rc = 1 → (execute client op (some rc) (some rd)).sleeps = []) := by
  unfold execute
  simp only [pyOrNat_pos rc client.base_retry_count hrc,
    pyOrNat_pos rd client.base_retry_delay hrd]
  constructor
  · rw [executeFrom_sleeps op rd rc rc 0 (by omega)]
    apply List.map_congr_left
    intro a _
    ring
  · intro hrc1
    subst hrc1
    rw [executeFrom_sleeps op rd 1 1 0 (by omega)]
    have hle := executeFrom_inv_le op rd 1 1 0
    have hz : (executeFrom op rd 1 0 1).invocations - 1 = 0 := by omega
    rw [hz]
    simp

/-- C3 witness: retryCount = 3, retryDelaySeconds = 2 on an always-failing
operation sleeps according to the linear schedule (concretely [2, 4]). -/
theorem execute_backoff_schedule_witness :
    (execute cfgW failOp (some 3) (some 2)).sleeps =
        (List.range ((execute cfgW failOp (some 3) (some 2)).invocations - 1)).map
          (fun i => 2 * (i + 1)) ∧
      ((3 : Nat) = 1 → (execute cfgW failOp (some 3) (some 2)).sleeps = []) :=
  execute_backoff_schedule cfgW failOp 3 2 (by omega) (by omega)

/-- C4 counterexample: an operation raising
`ValueError('base_url is not set')` (the spec's ConfigurationError) on
every attempt, run with retryCount = 2, is invoked twice — not once — and
a backoff sleep occurs: the blanket `except Exception` retries it. -/
theorem config_error_retried_counterexample :
    (execute cfgW cfgErrOp (some 2) (some 1)).invocations = 2 ∧
      (execute cfgW cfgErrOp (some 2) (some 1)).invocations ≠ 1 ∧
      (execute cfgW cfgErrOp (some 2) (some 1)).sleeps ≠ [] := by decide

/-- C4 amended: a ConfigurationError raised by the operation — the
`ValueError` from `make_url` or the `KeyError` of a missing id — is
treated like any other failure: the operation is invoked retryCount times
with the linear backoff sleeps after every non-final attempt, and the
error is surfaced only after the final attempt. -/
theorem config_error_retried_like_failure (client : HttpRestClient) (op : Operation)
    (rc rd : Nat) (hrc : 1 ≤ rc) (hrd : 1 ≤ rd)
    (hcfg : ∀ k, (∃ m, op k = Except.error (HttpError.valueError m)) ∨
      (∃ s, op k = Except.error (HttpError.keyError s))) :
    (execute client op (some rc) (some rd)).invocations = rc ∧
      (execute client op (some rc) (some rd)).result = some (attemptResult op (rc - 1)) ∧
      (execute client op (some rc) (some rd)).sleeps =
        (List.range (rc - 1)).map (fun i => rd * (i + 1)) := by
  have hfail : ∀ k, isFailure (attemptResult op k) = true := by
    intro k
    rcases hcfg k with ⟨m, hm⟩ | ⟨s, hm⟩
    · simp [attemptResult, hm, isFailure]
    · simp [attemptResult, hm, isFailure]
  unfold execute
  simp only [pyOrNat_pos rc client.base_retry_count hrc,
    pyOrNat_pos rd client.base_retry_delay hrd]
  rw [executeFrom_all_fail op rd rc hfail rc 0 (by omega) hrc]
  refine ⟨rfl, rfl, ?_⟩
  apply List.map_congr_left
  intro a _
  ring

/-- C4 amended, witness: the always-ConfigurationError operation under
retryCount = 2, retryDelaySeconds = 1 is invoked twice with one sleep. -/
theorem config_error_retried_like_failure_witness :
    (execute cfgW cfgErrOp (some 2) (some 1)).invocations = 2 ∧
      (execute cfgW cfgErrOp (some 2) (some 1)).result = some (attemptResult cfgErrOp 1) ∧
      (execute cfgW cfgErrOp (some 2) (some 1)).sleeps =
        (List.range 1).map (fun i => 1 * (i + 1)) :=
  config_error_retried_like_failure cfgW cfgErrOp 2 1 (by omega) (by omega)
    (fun _ => Or.inl ⟨"base_url is not set", rfl⟩)

/-- C5 (code bug, evaluated at the failing input): when the body of the
`make_session_ctx` scope raises, the exception propagates out of the
generator at the `yield` and `session.close()` never runs — the session is
closed only on the normal exit path. -/
theorem session_ctx_close_skipped_on_error :
    (make_session_ctx emptyDict cfgW [] []
        (fun _ => Except.error (HttpError.valueError "boom"))).2 = false ∧
      (make_session_ctx emptyDict cfgW [] [] (fun _ => Except.ok ())).2 = true :=
  ⟨rfl, rfl⟩

/-- C6 counterexample: a payload whose `id` is `None` does not fail with a
validation error — `make_url(None)` treats `None` as "no suffix" and the
PUT targets the bare base URL successfully. -/
theorem put_null_id_counterexample :
    make_put_url cfgW [("id", PyVal.vnone)] = Except.ok "http://x" ∧
      isFailure (make_put_url cfgW [("id", PyVal.vnone)]) = false := by decide

/-- C6 amended: with a non-empty base URL, invoking the PUT operation
raises `KeyError('id')` when the payload has no `id` field; a falsy `id`
(`None`, `0`, `""`) raises nothing and the request targets the base URL
unchanged; a truthy `id` targets baseURL + '/' + str(id) (with the slash
not doubled when str(id) already begins with one). -/
theorem put_url_build_cases (client : HttpRestClient) (u : String)
    (hu : client.base_url = some u) (hne : u ≠ "") (json : List (String × PyVal)) :
    (json.find? (fun kv => kv.1 == "id") = none →
        make_put_url client json = Except.error (HttpError.keyError "id")) ∧
      (∀ kv, json.find? (fun kv => kv.1 == "id") = some kv → pyTruthy kv.2 = false →
        make_put_url client json = Except.ok u) ∧
      (∀ kv, json.find? (fun kv => kv.1 == "id") = some kv → pyTruthy kv.2 = true →
        make_put_url client json =
          Except.ok (u ++ (if startsWithSlash (pyStr kv.2) then pyStr kv.2
            else "/" ++ pyStr kv.2))) := by
  refine ⟨?_, ?_, ?_⟩
  · intro h
    unfold make_put_url
    rw [h]
    rfl
  · intro kv hkv hv
    unfold make_put_url
    rw [hkv]
    simp only [Option.map_some']
    exact make_url_falsy client u hu hne kv.2 hv
  · intro kv hkv hv
    unfold make_put_url
    rw [hkv]
    simp only [Option.map_some']
    exact make_url_truthy client u hu hne kv.2 hv

/-- C6 amended, witness: a payload without `id` raises `KeyError('id')`;
payloads with the falsy ids `0` and `""` raise nothing and target the bare
base URL; a payload with `id = 7` targets "http://x/7". -/
theorem put_url_build_cases_witness :
    make_put_url cfgW [("x", PyVal.vint 1)] = Except.error (HttpError.keyError "id") ∧
      make_put_url cfgW [("id", PyVal.vint 0)] = Except.ok "http://x" ∧
      make_put_url cfgW [("id", PyVal.vstr "")] = Except.ok "http://x" ∧
      make_put_url cfgW [("id", PyVal.vint 7)] =
        Except.ok ("http://x" ++ (if startsWithSlash (pyStr (PyVal.vint 7)) then pyStr (PyVal.vint 7)
          else "/" ++ pyStr (PyVal.vint 7))) := by
  refine ⟨?_, ?_, ?_, ?_⟩
  · exact (put_url_build_cases cfgW "http://x" rfl (by decide) [("x", PyVal.vint 1)]).1 (by decide)
  · exact (put_url_build_cases cfgW "http://x" rfl (by decide) [("id", PyVal.vint 0)]).2.1
      ⟨"id", PyVal.vint 0⟩ (by decide) (by decide)
  · exact (put_url_build_cases cfgW "http://x" rfl (by decide) [("id", PyVal.vstr "")]).2.1
      ⟨"id", PyVal.vstr ""⟩ (by decide) (by decide)
  · exact (put_url_build_cases cfgW "http://x" rfl (by decide) [("id", PyVal.vint 7)]).2.2
      ⟨"id", PyVal.vint 7⟩ (by decide) (by decide)

/-- C7 counterexample: the claim covers "every integer id including 0",
but `make_url(0)` returns the base URL unchanged (`if append_suffix:`
treats `0` as falsy), not baseURL + "/" + str(0). -/
theorem make_url_zero_id_counterexample :
    make_url cfgW (PyVal.vint 0) = Except.ok "http://x" ∧
      (Except.ok "http://x" : Except HttpError String) ≠
        Except.ok ("http://x" ++ "/" ++ toString (0 : Int)) := by decide

/-- C7 amended: with a non-empty base URL, `makeURL(None)` returns the
base URL unchanged; for every nonzero integer id, `makeURL(id)` returns
baseURL + '/' + str(id) (a decimal rendering never begins with '/', so
the slash is inserted exactly once); for every non-empty string id the
slash is ensured exactly once (not doubled when the string already starts
with one); the falsy ids — the integer `0` and the empty string — return
the base URL unchanged. -/
theorem make_url_suffix_cases (client : HttpRestClient) (u : String)
    (hu : client.base_url = some u) (hne : u ≠ "") :
    make_url client PyVal.vnone = Except.ok u ∧
      (∀ n : Int, n ≠ 0 → make_url client (PyVal.vint n) = Except.ok (u ++ "/" ++ toString n)) ∧
      (∀ s : String, s ≠ "" →
        make_url client (PyVal.vstr s) =
          Except.ok (if startsWithSlash s then u ++ s else u ++ "/" ++ s)) ∧
      make_url client (PyVal.vint 0) = Except.ok u ∧
      make_url client (PyVal.vstr "") = Except.ok u := by
  refine ⟨?_, ?_, ?_, ?_, ?_⟩
  · exact make_url_falsy client u hu hne PyVal.vnone rfl
  · intro n hn
    have ht : pyTruthy (PyVal.vint n) = true := by
      simp [pyTruthy, hn]
    rw [make_url_truthy client u hu hne (PyVal.vint n) ht]
    have hps : pyStr (PyVal.vint n) = toString n := rfl
    rw [hps, int_toString_no_slash n]
    simp [String.append_assoc]
  · intro s hs
    have ht : pyTruthy (PyVal.vstr s) = true := by
      simp [pyTruthy, hs]
    rw [make_url_truthy client u hu hne (PyVal.vstr s) ht]
    have hps : pyStr (PyVal.vstr s) = s := rfl
    rw [hps]
    by_cases hsw : startsWithSlash s
    · simp [hsw]
    · simp [hsw, String.append_assoc]
  · exact make_url_falsy client u hu hne (PyVal.vint 0) rfl
  · exact make_url_falsy client u hu hne (PyVal.vstr "") rfl

/-- C7 amended, witness: on baseURL = "http://x", `makeURL(None)` gives
"http://x", `makeURL(5)` gives "http://x/5", `makeURL("/5")` gives
"http://x/5" (no doubled slash), and the falsy ids `0` and `""` give
"http://x" unchanged. -/
theorem make_url_suffix_cases_witness :
    make_url cfgW PyVal.vnone = Except.ok "http://x" ∧
      make_url cfgW (PyVal.vint 5) = Except.ok ("http://x" ++ "/" ++ toString (5 : Int)) ∧
      make_url cfgW (PyVal.vstr "/5") =
        Except.ok (if startsWithSlash "/5" then "http://x" ++ "/5" else "http://x" ++ "/" ++ "/5") ∧
      make_url cfgW (PyVal.vint 0) = Except.ok "http://x" ∧
      make_url cfgW (PyVal.vstr "") = Except.ok "http://x" := by
  have h := make_url_suffix_cases cfgW "http://x" rfl (by decide)
  exact ⟨h.1, h.2.1 5 (by decide), h.2.2.1 "/5" (by decide), h.2.2.2.1, h.2.2.2.2⟩

/-- C8: building a request operation via the factory never touches the
base URL — the closure returned is the same function whatever the client
state at build time — and a base URL set before invocation yields a
successful URL build at invocation time. -/
theorem get_factory_lazy_base_url (cBuild cBuild' cCall : HttpRestClient)
    (u : String) (hu : cCall.base_url = some u) (hne : u ≠ "") :
    make_get_function cBuild = make_get_function cBuild' ∧
      make_get_function cBuild cCall = Except.ok u := by
  constructor
  · rfl
  · exact make_url_falsy cCall u hu hne PyVal.vnone rfl

/-- C8 witness: a GET operation built while `base_url` is unset behaves
identically to one built with it set, and invoking it after the base URL
is "http://x" builds that URL successfully. -/
theorem get_factory_lazy_base_url_witness :
    make_get_function cfgUnset = make_get_function cfgW ∧
      make_get_function cfgUnset cfgW = Except.ok "http://x" :=
  get_factory_lazy_base_url cfgUnset cfgW cfgW "http://x" rfl (by decide)

/-- C9: for every set (truthy) bearer token and every caller-supplied
extra headers mapping, the built session carries
Authorization = "Bearer " + token — the injection happens after all
header merges, so an "Authorization" entry in the extras cannot override
it. -/
theorem session_bearer_wins (defaults : Dict) (client : HttpRestClient)
    (hs ps : List (String × String)) (t : String)
    (hb : client.bearer_token = some t) (ht : t ≠ "") :
    (make_session defaults client hs ps).headers "Authorization" =
      some ("Bearer " ++ t) := by
  simp [make_session, hb, ht, dictSet]

/-- C9 witness: bearer token "abc" beats a caller-supplied
Authorization = "Bearer evil". -/
theorem session_bearer_wins_witness :
    (make_session emptyDict cfgW [("Authorization", "Bearer evil")] []).headers
        "Authorization" = some ("Bearer " ++ "abc") :=
  session_bearer_wins emptyDict cfgW [("Authorization", "Bearer evil")] [] "abc" rfl (by decide)

/-- C10: an explicit retryCount of 0 or an explicit retryDelaySeconds of
0 is falsy under `or`-defaulting and is individually discarded — whatever
the other argument is, a call passing the zero behaves exactly like the
call not passing that argument at all (so the configuration's base value
is used for it); in particular an explicit delay of 0 yields sleeps of
baseRetryDelaySeconds * (i + 1), not zero-length sleeps. -/
theorem execute_truthiness_defaults (client : HttpRestClient) (op : Operation) :
    (∀ rdo : Option Nat, execute client op (some 0) rdo = execute client op none rdo) ∧
      (∀ rco : Option Nat, execute client op rco (some 0) = execute client op rco none) ∧
      execute client op (some 0) (some 0) = execute client op none none ∧
      (execute client op none (some 0)).sleeps =
        (List.range ((execute client op none (some 0)).invocations - 1)).map
          (fun i => client.base_retry_delay * (i + 1)) := by
  refine ⟨fun rdo => rfl, fun rco => rfl, rfl, ?_⟩
  · unfold execute
    have h0 : pyOrNat (some 0) client.base_retry_delay = client.base_retry_delay := rfl
    have hn : pyOrNat none client.base_retry_count = client.base_retry_count := rfl
    simp only [h0, hn]
    rw [executeFrom_sleeps op client.base_retry_delay client.base_retry_count
      client.base_retry_count 0 (by omega)]
    apply List.map_congr_left
    intro a _
    ring

end HttpRest
